import Mathlib

/-!
Shallow embedding of the ai-jobfinder pipeline (src/main.py, src/src/api.py,
src/src/services.py, src/src/types.py) for checking the specification claims.

Conventions of the embedding:
* Machine floats carrying wall-clock timestamps are modelled as rationals (ℚ);
  the 0.1-second buffer of the rate limiter becomes the literal 1/10.
* A Python function that may raise an exception to its caller is modelled with
  Except; an exception that the function itself catches and converts to None is
  modelled directly as none.
* External calls (Firecrawl scrape/extract, OpenAI completion) are opaque
  collaborators: each model takes the outcome of the call as an argument.
* File-system state for one cache key is a FileState value: the file is absent,
  present but not decodable as JSON (corrupt), or present with a decodable,
  shape-valid payload (valid).
-/

/-- JobSchema from src/src/types.py: the six string-valued fields of one job
posting record (pydantic model; key_skills is a list of strings). -/
structure JobSchema where
  job_title : String
  sub_division_of_organization : String
  key_skills : List String
  compensation : String
  location : String
  apply_link : String
deriving DecidableEq

/-- JobSchemas from src/src/types.py: a wrapper holding a list of JobSchema
under the single field jobs. -/
structure JobSchemas where
  jobs : List JobSchema
deriving DecidableEq

/-- ScrapeEndpointJsonSchema from src/src/types.py, restricted to the payload
the pipeline actually reads: the json field with its apply_links list
(metadata is opaque and never consulted, so it is omitted). -/
structure ScrapeEndpointJson where
  apply_links : List String
deriving DecidableEq

/-- State of one on-disk cache file for a key: missing, present but failing
JSON decoding, or present with a decoded, shape-valid value of type α. -/
inductive FileState (α : Type) where
  | absent
  | corrupt
  | valid (a : α)
deriving DecidableEq

/-- Observable outcome of one cache-wrapper call: the value returned to the
caller, the file state left behind for the key, and whether the expensive
compute step was invoked during the call. -/
structure WrapperCall (α β : Type) where
  result : α
  file : FileState β
  invoked : Bool
deriving DecidableEq

/-- scrape_jobs_page from src/src/services.py lines 17-46. If the cache file
exists it is read with a bare json.load (no exception handling), so a file
that fails to decode raises to the caller: modelled as Except.error. On a
miss the Firecrawl call runs inside try/except; a raise or a result lacking
the json key yields None (compute = none), a usable result is written to the
file and returned. -/
def scrape_jobs_page (file : FileState ScrapeEndpointJson)
    (compute : Option ScrapeEndpointJson) :
    Except Unit (WrapperCall (Option ScrapeEndpointJson) ScrapeEndpointJson) :=
  match file with
  | .valid a => .ok ⟨some a, .valid a, false⟩
  | .corrupt => .error ()
  | .absent =>
      match compute with
      | none => .ok ⟨none, .absent, true⟩
      | some a => .ok ⟨some a, .valid a, true⟩

/-- process_job_links from src/src/services.py lines 185-211. If the cache
file exists it is read with a bare json.load (no exception handling), so a
corrupt file raises: Except.error. Otherwise it runs
process_job_links_async and returns its list directly; no write to the cache
file appears anywhere on this path, so the file state stays absent. -/
def process_job_links (file : FileState (List JobSchema))
    (compute : List JobSchema) :
    Except Unit (WrapperCall (List JobSchema) (List JobSchema)) :=
  match file with
  | .valid a => .ok ⟨a, .valid a, false⟩
  | .corrupt => .error ()
  | .absent => .ok ⟨compute, .absent, true⟩

/-- Decoded recommendation cache payloads accepted by get_job_recommendations
(src/src/services.py lines 234-238): either a bare JSON array of job objects,
or a JSON object wrapping the array under the jobs key. -/
inductive RecCacheJson where
  | arr (jobs : List JobSchema)
  | obj (jobs : List JobSchema)
deriving DecidableEq

/-- The two-format cache read of get_job_recommendations lines 236-238: a bare
list is wrapped as JobSchemas(jobs=[JobSchema(**job) for job in data]); an
object is parsed as JobSchemas(**data). -/
def readRecommendationCache : RecCacheJson → JobSchemas
  | .arr l => ⟨l⟩
  | .obj l => ⟨l⟩

/-- get_job_recommendations from src/src/services.py lines 214-290. A cache
file that decodes is returned via readRecommendationCache without calling the
API; a json.JSONDecodeError is caught (line 239) and falls through to the
compute path, leaving the corrupt file in place until a success overwrites it.
The OpenAI call runs inside try/except: any raise, missing choices, empty
content or parse failure yields None with no write (compute = none); a parsed
JobSchemas result is written as an object under the jobs key, then returned. -/
def get_job_recommendations (file : FileState RecCacheJson)
    (compute : Option JobSchemas) :
    WrapperCall (Option JobSchemas) RecCacheJson :=
  match file with
  | .valid j => ⟨some (readRecommendationCache j), .valid j, false⟩
  | .corrupt =>
      match compute with
      | none => ⟨none, .corrupt, true⟩
      | some r => ⟨some r, .valid (.obj r.jobs), true⟩
  | .absent =>
      match compute with
      | none => ⟨none, .absent, true⟩
      | some r => ⟨some r, .valid (.obj r.jobs), true⟩

/-- wait_for_rate_limit from src/src/api.py lines 24-39, as a pure function of
the window contents, the limits and the current time; it returns the slept
duration and the window left behind. The while loop pops stale entries from
the front (a prefix trim, i.e. dropWhile); then, if the remaining count
reaches rate_limit, it sleeps window[0] - (now - window_size) + 0.1 when that
is positive. The empty-match arm is unreachable for rate_limit ≥ 1 (the CLI
enforces min=1); Python would raise IndexError there for rate_limit = 0. -/
def wait_for_rate_limit (ts : List ℚ) (rate_limit : ℕ) (window_size : ℚ)
    (now : ℚ) : ℚ × List ℚ :=
  let pruned := ts.dropWhile (fun x => decide (x < now - window_size))
  if rate_limit ≤ pruned.length then
    match pruned with
    | [] => (0, [])
    | h :: rest =>
        let s := h - (now - window_size) + 1/10
        (if 0 < s then s else 0, h :: rest)
  else (0, pruned)

/-- The inline rate-limit loop of extract_job_data_async, src/src/services.py
lines 90-98, as a pure function returning (total time slept, window left
behind, time at which the loop exits). The loop runs while the window length
is at least rate_limit: if the oldest entry is still inside the window it
sleeps oldest - (now - window_size) + 0.1 and refreshes now; otherwise it pops
the oldest. A sleep of that exact duration leaves the new time at
oldest + window_size + 0.1, which makes the oldest entry stale, so the very
next iteration pops it: the model fuses each sleep with that guaranteed pop,
recursing on the tail. Sleeping is modelled as advancing time by exactly the
requested duration, and the window is not mutated by other tasks during the
sleep. The nil arm with rate_limit = 0 is Python IndexError territory, as in
wait_for_rate_limit; all claims assume rate_limit ≥ 1. -/
def rateLoop (rate_limit : ℕ) (window_size : ℚ) :
    List ℚ → ℚ → ℚ × List ℚ × ℚ
  | [], t => (0, [], t)
  | oldest :: rest, t =>
      if rate_limit ≤ rest.length + 1 then
        if t - window_size < oldest then
          let w := oldest - (t - window_size) + 1/10
          let r := rateLoop rate_limit window_size rest (t + w)
          (w + r.1, r.2)
        else
          rateLoop rate_limit window_size rest t
      else (0, oldest :: rest, t)

/-- Outcome of one call to the external extraction API (firecrawl.extract) for
a link, as the extractor observes it: either the call raises, or it returns a
response with a success flag and an optional data payload (None or an empty
payload both read as falsy `not data` in the source). π is the type of raw
payloads before schema validation. -/
inductive ExtractOutcome (π : Type) where
  | raises
  | returns (success : Bool) (data : Option π)

/-- extract_job_data from src/src/services.py lines 49-74. The whole body sits
in try/except returning None on a raise; a non-success response or a falsy
payload yields None; otherwise JobSchema(**data) is attempted, and a schema
validation failure raises into the same except, again yielding None. validate
models JobSchema(**data): some on success, none when validation fails. -/
def extract_job_data {π : Type} (validate : π → Option JobSchema) :
    ExtractOutcome π → Option JobSchema
  | .raises => none
  | .returns success data =>
      if success then
        match data with
        | none => none
        | some d => validate d
      else none

/-- The try block of extract_job_data_async, src/src/services.py lines
100-130, run after the rate-limit loop: it returns the extraction result
together with the request_timestamps window it leaves behind. The source
appends time.time() (modelled as t) at line 124, after the success and
payload checks but BEFORE JobSchema(**data) at line 126; a validation raise
is caught by the except at line 128 and returns None, with the appended
timestamp left in the window. -/
def extract_job_data_async_body {π : Type} (validate : π → Option JobSchema)
    (o : ExtractOutcome π) (request_timestamps : List ℚ) (t : ℚ) :
    Option JobSchema × List ℚ :=
  match o with
  | .raises => (none, request_timestamps)
  | .returns success data =>
      if success then
        match data with
        | none => (none, request_timestamps)
        | some d => (validate d, request_timestamps ++ [t])
      else (none, request_timestamps)

/-- The order-preserving truncation links[:max_jobs] of
process_job_links_async, src/src/services.py line 166. σ is the link type. -/
def selectedLinks {σ : Type} (links : List σ) (max_jobs : ℕ) : List σ :=
  links.take max_jobs

/-- The task list of process_job_links_async lines 157-167: one extraction
task per selected link, in the order of the truncated list. -/
def extractionTasks {σ α : Type} (links : List σ) (max_jobs : ℕ)
    (extract : σ → α) : List α :=
  (selectedLinks links max_jobs).map extract

/-- The collection loop of process_job_links_async lines 169-180:
asyncio.as_completed yields the tasks in completion order (modelled as the
list completionOrder, a permutation of the selected links), and only results
that are JobSchema instances (not None) are appended. This is filterMap of
the per-link outcome over the completion order. -/
def scheduledResults {σ : Type} (extract : σ → Option JobSchema)
    (completionOrder : List σ) : List JobSchema :=
  completionOrder.filterMap extract

/-- The check `if not jobs: raise ValueError("No job data extracted")` in
src/main.py lines 114-115: the extraction stage is treated as failed exactly
when the filtered result list is empty. -/
def extractionStageFails (jobs : List JobSchema) : Bool :=
  jobs.isEmpty

/-- Phases of one extraction task of process_job_links_async with respect to
the admission semaphore (src/src/services.py lines 88 and 154): waiting to
enter `async with semaphore`, admitted (inside the with-block, before or in
the rate-limit wait), calling (the firecrawl.extract network call is
outstanding), or finished (the with-block exited, permit released). -/
inductive TaskPhase where
  | waiting
  | admitted
  | calling
  | finished
deriving DecidableEq

/-- Instantaneous state of one run of process_job_links_async: the number of
free permits of the semaphore created with asyncio.Semaphore(max_concurrent)
at line 154, and the phase of each launched task. -/
structure SchedulerState where
  avail : ℕ
  tasks : List TaskPhase
deriving DecidableEq

/-- Interleaving semantics of the semaphore discipline of
extract_job_data_async: a task enters the with-block only by taking a free
permit (acquire), performs its network call while holding it (startCall), and
the permit returns only when the with-block exits (finish). Any task may move
at any step, modelling the event-loop interleaving. -/
inductive SchedStep : SchedulerState → SchedulerState → Prop
  | acquire (a : ℕ) (l r : List TaskPhase) :
      SchedStep ⟨a + 1, l ++ .waiting :: r⟩ ⟨a, l ++ .admitted :: r⟩
  | startCall (a : ℕ) (l r : List TaskPhase) :
      SchedStep ⟨a, l ++ .admitted :: r⟩ ⟨a, l ++ .calling :: r⟩
  | finish (a : ℕ) (l r : List TaskPhase) :
      SchedStep ⟨a, l ++ .calling :: r⟩ ⟨a + 1, l ++ .finished :: r⟩

/-- The initial state of a run with max_concurrent = c and n launched tasks:
all permits free, every task waiting to enter the with-block. -/
def initialSchedulerState (c n : ℕ) : SchedulerState :=
  ⟨c, List.replicate n .waiting⟩

/-- States reachable by interleaving the tasks of one run. -/
def SchedReachable (c n : ℕ) (s : SchedulerState) : Prop :=
  Relation.ReflTransGen SchedStep (initialSchedulerState c n) s

/-- Number of extraction calls outstanding in a state. -/
def outstandingCalls (s : SchedulerState) : ℕ :=
  s.tasks.count .calling

/-- Number of tasks currently holding a permit of the admission semaphore. -/
def holdingPermit (s : SchedulerState) : ℕ :=
  s.tasks.count .admitted + s.tasks.count .calling

/-- A job record with all fields blank, used as a concrete value in
counterexamples and witnesses; the source permits empty strings ("leave
fields blank if uncertain"). -/
def sampleJob : JobSchema := ⟨"", "", [], "", "", ""⟩

/-- A concrete fake extractor over natural-number link identifiers: link 0
extracts successfully, every other link fails. -/
def sampleExtract : ℕ → Option JobSchema :=
  fun l => if l = 0 then some sampleJob else none

/-- C1: the claim asserts the twice-called round trip (compute invoked once,
equal result, persisted before return) for all three wrapped operations. It
holds for scrape_jobs_page and get_job_recommendations but fails for
process_job_links, which never writes its cache file; the amended statement
proved here: for the scrape and recommendation wrappers, a first call on an
absent file with a usable compute result persists the result before returning
it, and a second call returns an equal result without invoking compute; the
extraction-batch wrapper leaves the file absent and invokes compute on every
such call. -/
theorem cache_round_trip_amended :
    ∀ (a : ScrapeEndpointJson) (r : JobSchemas) (b : List JobSchema)
      (c₁ : Option ScrapeEndpointJson) (c₂ : Option JobSchemas),
    scrape_jobs_page .absent (some a) = .ok ⟨some a, .valid a, true⟩ ∧
    scrape_jobs_page (.valid a) c₁ = .ok ⟨some a, .valid a, false⟩ ∧
    get_job_recommendations .absent (some r)
      = ⟨some r, .valid (.obj r.jobs), true⟩ ∧
    get_job_recommendations (.valid (.obj r.jobs)) c₂
      = ⟨some r, .valid (.obj r.jobs), false⟩ ∧
    process_job_links .absent b = .ok ⟨b, .absent, true⟩ := by
  intro a r b c₁ c₂
  exact ⟨rfl, rfl, rfl, rfl, rfl⟩

/-- C1 counterexample: the extraction-batch wrapper invoked with an absent
cache file computes (invoked = true) and leaves the file absent, so the
second call — on the file component of the outcome of the first call — computes
again: compute runs twice for the same key, refuting "invokes the compute
function exactly once". -/
theorem cache_round_trip_counterexample :
    process_job_links .absent [sampleJob] = .ok ⟨[sampleJob], .absent, true⟩ ∧
    process_job_links
        (WrapperCall.file
          (⟨[sampleJob], .absent, true⟩ :
            WrapperCall (List JobSchema) (List JobSchema))) [sampleJob]
      = .ok ⟨[sampleJob], .absent, true⟩ :=
  ⟨rfl, rfl⟩

/-- C2: the claim asserts corrupt-file-as-miss for all three wrappers
identically; only get_job_recommendations catches the decode error. Amended
statement proved here: on a corrupt cache file the recommendation wrapper
invokes compute and returns its outcome without propagating the parse error,
while scrape_jobs_page and process_job_links propagate the parse error to the
caller and never reach compute. -/
theorem corrupt_cache_amended :
    ∀ (c : Option JobSchemas) (s : Option ScrapeEndpointJson)
      (b : List JobSchema),
    (get_job_recommendations .corrupt c).invoked = true ∧
    (get_job_recommendations .corrupt c).result = c ∧
    scrape_jobs_page .corrupt s = .error () ∧
    process_job_links .corrupt b = .error () := by
  intro c s b
  refine ⟨?_, ?_, rfl, rfl⟩ <;> cases c <;> rfl

/-- C2 counterexample: a corrupt scrape cache file makes scrape_jobs_page
raise the parse error to its caller (Except.error) instead of invoking
compute, even though compute has a usable result available — refuting the
claim that all three wrappers treat a corrupt entry as a cache miss. -/
theorem corrupt_cache_counterexample :
    scrape_jobs_page .corrupt (some ⟨[]⟩) = .error () := rfl

/-- C10: the recommendation cache reader accepts both on-disk formats: a bare
JSON array is wrapped into JobSchemas, and an object with the jobs field is
parsed as JobSchemas; both yield the same JobSchemas value, and in both cases
the cached value is returned without invoking the recommendation API
(invoked = false). -/
theorem recommendation_cache_two_formats :
    ∀ (l : List JobSchema) (c : Option JobSchemas),
    get_job_recommendations (.valid (.arr l)) c
      = ⟨some ⟨l⟩, .valid (.arr l), false⟩ ∧
    get_job_recommendations (.valid (.obj l)) c
      = ⟨some ⟨l⟩, .valid (.obj l), false⟩ := by
  intro l c
  exact ⟨rfl, rfl⟩

/-- The exit time of the inline rate-limit loop never precedes its entry
time: sleeping only moves time forward. -/
theorem rateLoop_time_mono (R : ℕ) (W : ℚ) :
    ∀ (ts : List ℚ) (t : ℚ), t ≤ (rateLoop R W ts t).2.2 := by
  intro ts
  induction ts with
  | nil => intro t; simp [rateLoop]
  | cons h rest ih =>
      intro t
      simp only [rateLoop]
      split
      · split
        · rename_i hfresh
          have hmono := ih (t + (h - (t - W) + 1/10))
          simp only []
          calc t ≤ t + (h - (t - W) + 1/10) := by linarith
            _ ≤ _ := hmono
        · exact ih t
      · simp

/-- Every element surviving the stale-entry prefix trim of a time-ordered
window is at least the cutoff. -/
theorem dropWhile_stale_lower_bound (c : ℚ) :
    ∀ (ts : List ℚ), ts.Sorted (fun a b => a ≤ b) →
      ∀ x ∈ ts.dropWhile (fun y => decide (y < c)), c ≤ x := by
  intro ts
  induction ts with
  | nil => simp
  | cons h rest ih =>
      intro hs x hx
      rw [List.dropWhile_cons] at hx
      rcases List.sorted_cons.mp hs with ⟨hle, hrest⟩
      by_cases hc : h < c
      · simp [hc] at hx
        exact ih hrest x hx
      · simp [hc] at hx
        rcases hx with rfl | hx2
        · exact not_lt.mp hc
        · exact le_trans (not_lt.mp hc) (hle x hx2)

/-- If every window entry is stale at the cutoff, the prefix trim empties the
window. -/
theorem dropWhile_stale_all (c : ℚ) :
    ∀ (ts : List ℚ), (∀ x ∈ ts, x < c) →
      ts.dropWhile (fun y => decide (y < c)) = [] := by
  intro ts hall
  refine List.dropWhile_eq_nil_iff.mpr ?_
  intro x hx
  simpa using hall x hx

/-- The window left behind by wait_for_rate_limit is exactly the stale-prefix
trim of the input window: sleeping does not alter the window contents. -/
theorem wait_for_rate_limit_window_eq (ts : List ℚ) (R : ℕ) (W now : ℚ) :
    (wait_for_rate_limit ts R W now).2
      = ts.dropWhile (fun y => decide (y < now - W)) := by
  simp only [wait_for_rate_limit]
  split
  · split
    · rename_i heq
      exact heq.symm
    · rename_i heq
      exact heq.symm
  · rfl

/-- C3: the claim asserts that every acquire consultation sees a fully
evicted window, for every window state including those with fewer than
rate_limit entries. That holds for wait_for_rate_limit (src/src/api.py),
which trims stale entries before its length check, but not for the inline
rate-limit loop of extract_job_data_async (the acquire path actually used by
the scheduler), which evicts only while the window length is at least
rate_limit. Amended statement proved here: after wait_for_rate_limit, every
remaining timestamp of a time-ordered window is within window_size of now;
the inline loop with fewer than rate_limit entries returns immediately and
leaves the window untouched, stale entries included. -/
theorem rate_window_eviction_amended :
    (∀ (ts : List ℚ) (R : ℕ) (W now : ℚ),
        ts.Sorted (fun a b => a ≤ b) →
        ∀ x ∈ (wait_for_rate_limit ts R W now).2, now - W ≤ x) ∧
    (∀ (ts : List ℚ) (R : ℕ) (W t : ℚ), ts.length < R →
        rateLoop R W ts t = (0, ts, t)) := by
  constructor
  · intro ts R W now hs x hx
    rw [wait_for_rate_limit_window_eq] at hx
    exact dropWhile_stale_lower_bound (now - W) ts hs x hx
  · intro ts R W t hlen
    cases ts with
    | nil => simp [rateLoop]
    | cons h rest =>
        have hR : ¬ (R ≤ rest.length + 1) := by
          simp [List.length_cons] at hlen
          omega
        simp [rateLoop, hR]

/-- C3 witness: window [0, 50] with rate_limit 2, window_size 60, now 100 is
time-ordered; wait_for_rate_limit keeps the entry 50, and 50 is indeed within
60 seconds of 100. -/
theorem rate_window_eviction_witness :
    List.Sorted (fun a b => a ≤ b) [(0:ℚ), 50] ∧
    (50:ℚ) ∈ (wait_for_rate_limit [0, 50] 2 60 100).2 ∧
    (100:ℚ) - 60 ≤ 50 := by
  have hs : List.Sorted (fun a b => a ≤ b) [(0:ℚ), 50] := by
    norm_num [List.sorted_cons]
  have hmem : (50:ℚ) ∈ (wait_for_rate_limit [0, 50] 2 60 100).2 := by
    rw [wait_for_rate_limit_window_eq]
    norm_num [List.dropWhile]
  exact ⟨hs, hmem, rate_window_eviction_amended.1 [0, 50] 2 60 100 hs 50 hmem⟩

/-- C3 counterexample: the inline acquire of extract_job_data_async at time
100 with window [0], rate_limit 2, window_size 60 consults the window length,
proceeds without sleeping, and leaves the window as [0] — yet timestamp 0 is
older than now - window_size = 40, refuting the claim that stale entries are
evicted before the length is used in every rate-limit decision. -/
theorem rate_window_eviction_counterexample :
    rateLoop 2 60 [0] 100 = (0, [0], 100) ∧ (0:ℚ) < 100 - 60 := by
  constructor
  · simp [rateLoop]
  · norm_num

/-- When the inline loop of extract_job_data_async finds the window saturated
(length at least rate_limit) with a fresh oldest entry, it sleeps past
oldest + window_size: the time at which it exits is at least that. -/
theorem rateLoop_saturated_wait (R : ℕ) (W : ℚ) (rest : List ℚ) (h t : ℚ)
    (hR : R ≤ rest.length + 1) (hfresh : t - W < h) :
    h + W ≤ (rateLoop R W (h :: rest) t).2.2 := by
  simp only [rateLoop, if_pos hR, if_pos hfresh]
  have hmono := rateLoop_time_mono R W rest (t + (h - (t - W) + 1/10))
  linarith

/-- When every window entry is at most p and the call arrives more than
window_size after p, the inline loop sleeps zero time and exits at once. -/
theorem rateLoop_idle_no_wait (R : ℕ) (W : ℚ) :
    ∀ (ts : List ℚ) (t p : ℚ), (∀ x ∈ ts, x ≤ p) → p + W < t →
      (rateLoop R W ts t).1 = 0 ∧ (rateLoop R W ts t).2.2 = t := by
  intro ts
  induction ts with
  | nil => intro t p hall hidle; simp [rateLoop]
  | cons h rest ih =>
      intro t p hall hidle
      have hh : h ≤ p := hall h (List.mem_cons_self h rest)
      have hstale : ¬ (t - W < h) := by linarith
      simp only [rateLoop, if_neg hstale]
      split
      · exact ih t p (fun x hx => hall x (List.mem_cons_of_mem h hx)) hidle
      · simp

/-- wait_for_rate_limit on a saturated window with fresh oldest entry sleeps
long enough that entry + window_size has elapsed when it returns. -/
theorem wait_for_rate_limit_saturated (R : ℕ) (W : ℚ) (rest : List ℚ)
    (h t : ℚ) (hR : R ≤ rest.length + 1) (hfresh : t - W < h) :
    h + W ≤ t + (wait_for_rate_limit (h :: rest) R W t).1 := by
  have hpr : (h :: rest).dropWhile (fun y => decide (y < t - W)) = h :: rest := by
    rw [List.dropWhile_cons]
    simp [not_lt.mpr hfresh.le]
  have hpos : (0:ℚ) < h - (t - W) + 1/10 := by linarith
  simp only [wait_for_rate_limit, hpr, List.length_cons, if_pos hR, if_pos hpos]
  linarith

/-- wait_for_rate_limit issued more than window_size after the newest entry
sleeps zero time. -/
theorem wait_for_rate_limit_idle (R : ℕ) (W : ℚ) (ts : List ℚ) (t p : ℚ)
    (hall : ∀ x ∈ ts, x ≤ p) (hidle : p + W < t) :
    (wait_for_rate_limit ts R W t).1 = 0 := by
  have hpr : ts.dropWhile (fun y => decide (y < t - W)) = [] :=
    dropWhile_stale_all (t - W) ts (fun x hx => by linarith [hall x hx])
  simp only [wait_for_rate_limit, hpr]
  split
  · rfl
  · rfl

/-- C4: for the two rate-limit implementations (the inline loop of
extract_job_data_async, which is the one the scheduler runs, and
wait_for_rate_limit of src/src/api.py): a call that finds the window holding
at least rate_limit entries with fresh oldest entry h — the situation of the
(R+1)-th back-to-back call, where h = window[0] — does not proceed before
h + window_size has elapsed; and a call issued more than window_size after
the newest recorded timestamp p proceeds with zero wait (and, for the inline
loop, with the exit time equal to the entry time). -/
theorem rate_gate_boundary_behavior :
    (∀ (R : ℕ) (W : ℚ) (rest : List ℚ) (h t : ℚ),
        R ≤ rest.length + 1 → t - W < h →
        h + W ≤ (rateLoop R W (h :: rest) t).2.2) ∧
    (∀ (R : ℕ) (W : ℚ) (ts : List ℚ) (t p : ℚ),
        (∀ x ∈ ts, x ≤ p) → p + W < t →
        (rateLoop R W ts t).1 = 0 ∧ (rateLoop R W ts t).2.2 = t) ∧
    (∀ (R : ℕ) (W : ℚ) (rest : List ℚ) (h t : ℚ),
        R ≤ rest.length + 1 → t - W < h →
        h + W ≤ t + (wait_for_rate_limit (h :: rest) R W t).1) ∧
    (∀ (R : ℕ) (W : ℚ) (ts : List ℚ) (t p : ℚ),
        (∀ x ∈ ts, x ≤ p) → p + W < t →
        (wait_for_rate_limit ts R W t).1 = 0) :=
  ⟨fun R W rest h t hR hf => rateLoop_saturated_wait R W rest h t hR hf,
   fun R W ts t p ha hi => rateLoop_idle_no_wait R W ts t p ha hi,
   fun R W rest h t hR hf => wait_for_rate_limit_saturated R W rest h t hR hf,
   fun R W ts t p ha hi => wait_for_rate_limit_idle R W ts t p ha hi⟩

/-- C4 witness: rate_limit 1, window_size 60, window [10], call at time 20:
the hypotheses hold and the inline loop does not exit before time 70. -/
theorem rate_gate_boundary_witness :
    ((1:ℕ) ≤ ([] : List ℚ).length + 1 ∧ (20:ℚ) - 60 < 10) ∧
    (10:ℚ) + 60 ≤ (rateLoop 1 60 [10] 20).2.2 := by
  refine ⟨⟨by norm_num, by norm_num⟩, ?_⟩
  exact rate_gate_boundary_behavior.1 1 60 [] 10 20 (by norm_num) (by norm_num)

/-- Permit accounting: in every reachable state of one scheduler run, the
free permits plus the tasks inside the with-block (admitted or calling) equal
max_concurrent. -/
theorem sched_permit_invariant (c n : ℕ) (s : SchedulerState)
    (hr : SchedReachable c n s) : s.avail + holdingPermit s = c := by
  induction hr with
  | refl =>
      simp [initialSchedulerState, holdingPermit, List.count_replicate]
  | tail _ hstep ih =>
      cases hstep with
      | acquire a l r =>
          simp only [holdingPermit, List.count_append, List.count_cons] at ih ⊢
          simp at ih ⊢
          omega
      | startCall a l r =>
          simp only [holdingPermit, List.count_append, List.count_cons] at ih ⊢
          simp at ih ⊢
          omega
      | finish a l r =>
          simp only [holdingPermit, List.count_append, List.count_cons] at ih ⊢
          simp at ih ⊢
          omega

/-- C5: in every state reachable by interleaving the tasks of one
process_job_links_async run with max_concurrent = c, at most c extraction
calls are outstanding simultaneously: a task reaches the calling phase only
inside the with-block of the admission semaphore initialised to c, and holds
its permit for the duration of the call. -/
theorem semaphore_bounds_outstanding_calls (c n : ℕ) (s : SchedulerState)
    (hr : SchedReachable c n s) : outstandingCalls s ≤ c := by
  have hinv := sched_permit_invariant c n s hr
  simp only [outstandingCalls, holdingPermit] at hinv ⊢
  omega

/-- C5 witness: with max_concurrent = 1 and two tasks, the state where the
extraction call of the first task is outstanding is reachable (acquire, then
start the call), and it has at most one outstanding call. -/
theorem semaphore_bounds_witness :
    SchedReachable 1 2 ⟨0, [.calling, .waiting]⟩ ∧
    outstandingCalls ⟨0, [.calling, .waiting]⟩ ≤ 1 := by
  have step1 : SchedStep (initialSchedulerState 1 2) ⟨0, [.admitted, .waiting]⟩ :=
    SchedStep.acquire 0 [] [.waiting]
  have step2 : SchedStep ⟨0, [.admitted, .waiting]⟩ ⟨0, [.calling, .waiting]⟩ :=
    SchedStep.startCall 0 [] [.waiting]
  have hr : SchedReachable 1 2 ⟨0, [.calling, .waiting]⟩ :=
    Relation.ReflTransGen.head step1 (Relation.ReflTransGen.head step2 .refl)
  exact ⟨hr, semaphore_bounds_outstanding_calls 1 2 _ hr⟩

/-- Each result list of filterMap is as long as the count of inputs on which
the function succeeds. -/
theorem length_filterMap_eq_countP {α β : Type} (f : α → Option β) :
    ∀ l : List α, (l.filterMap f).length = l.countP (fun a => (f a).isSome) := by
  intro l
  induction l with
  | nil => rfl
  | cons a l ih =>
      rw [List.filterMap_cons, List.countP_cons]
      cases hfa : f a <;> simp [hfa, ih]

/-- C6: for every link list, selection bound and per-link outcome, and every
completion order (any permutation of the selected links), the scheduler
output is a permutation of the successful extractions of the selected links,
its length is the number of successes, and main treats the extraction stage
as failed exactly when that filtered list is empty. -/
theorem scheduler_success_permutation :
    ∀ (σ : Type) (links completionOrder : List σ) (k : ℕ)
      (extract : σ → Option JobSchema),
    completionOrder.Perm (selectedLinks links k) →
    (scheduledResults extract completionOrder).Perm
        ((selectedLinks links k).filterMap extract) ∧
    (scheduledResults extract completionOrder).length
        = (selectedLinks links k).countP (fun l => (extract l).isSome) ∧
    (extractionStageFails (scheduledResults extract completionOrder) = true ↔
        scheduledResults extract completionOrder = []) := by
  intro σ links completionOrder k extract hperm
  have hp : (scheduledResults extract completionOrder).Perm
      ((selectedLinks links k).filterMap extract) := hperm.filterMap extract
  refine ⟨hp, ?_, ?_⟩
  · rw [hp.length_eq, length_filterMap_eq_countP]
  · simp [extractionStageFails, List.isEmpty_iff]

/-- C6 witness: links [0, 1, 2] with max_jobs = 2 select [0, 1]; completion
order [1, 0] is a permutation of them; with sampleExtract succeeding only on
link 0, the output length is the success count (one). -/
theorem scheduler_success_permutation_witness :
    ([1, 0] : List ℕ).Perm (selectedLinks [0, 1, 2] 2) ∧
    (scheduledResults sampleExtract [1, 0]).length
      = (selectedLinks [0, 1, 2] 2).countP (fun l => (sampleExtract l).isSome) := by
  have hperm : ([1, 0] : List ℕ).Perm (selectedLinks [0, 1, 2] 2) := by decide
  exact ⟨hperm,
    (scheduler_success_permutation ℕ [0, 1, 2] [1, 0] 2 sampleExtract hperm).2.1⟩

/-- C7: the scheduler selects exactly the first min(max_jobs, length) links —
an order-preserving truncation, the selected list followed by the dropped
suffix reassembling the input — and launches one task per selected link, so
the number of extraction calls issued never exceeds max_jobs. -/
theorem truncation_bounds_calls :
    ∀ (σ α : Type) (links : List σ) (k : ℕ) (extract : σ → α),
    (selectedLinks links k).length = min k links.length ∧
    selectedLinks links k ++ links.drop k = links ∧
    (extractionTasks links k extract).length
        = (selectedLinks links k).length ∧
    (extractionTasks links k extract).length ≤ k := by
  intro σ α links k extract
  refine ⟨List.length_take k links, List.take_append_drop k links, ?_, ?_⟩
  · simp [extractionTasks]
  · simp [extractionTasks, selectedLinks, List.length_take]

/-- C8: the link extractor returns none rather than raising in each of the
four failure cases — the API call raises, the API reports non-success, the
API reports success with no payload, and the payload fails JobSchema
validation (validate yields none) — and a none result is silently dropped
from the surrounding batch, which continues with the remaining links.
Logging of each case (warning/exception in the source) has no observable
value-level effect and is not modelled. -/
theorem extractor_absent_on_failure :
    ∀ (π : Type) (validate : π → Option JobSchema) (data : Option π) (d : π)
      (f : ℕ → Option JobSchema) (l : ℕ) (rest : List ℕ),
    extract_job_data validate .raises = none ∧
    extract_job_data validate (.returns false data) = none ∧
    extract_job_data validate (.returns true none) = none ∧
    (validate d = none →
        extract_job_data validate (.returns true (some d)) = none) ∧
    (f l = none →
        scheduledResults f (l :: rest) = scheduledResults f rest) := by
  intro π validate data d f l rest
  refine ⟨rfl, rfl, rfl, ?_, ?_⟩
  · intro hv
    simp [extract_job_data, hv]
  · intro hf
    simp [scheduledResults, List.filterMap_cons, hf]

/-- C8 witness: with a validator that rejects its payload and an extractor
that fails on link 0, the validation-failure case returns none and the batch
over [0, 1] reduces to the batch over [1]. -/
theorem extractor_absent_on_failure_witness :
    ((fun _ : Unit => (none : Option JobSchema)) () = none ∧
      sampleExtract 1 = none) ∧
    extract_job_data (fun _ : Unit => (none : Option JobSchema))
        (.returns true (some ())) = none ∧
    scheduledResults sampleExtract [1, 0] = scheduledResults sampleExtract [0] := by
  refine ⟨⟨rfl, by decide⟩, ?_, ?_⟩
  · exact (extractor_absent_on_failure Unit (fun _ => none) none ()
      sampleExtract 1 [0]).2.2.2.1 rfl
  · exact (extractor_absent_on_failure Unit (fun _ => none) none ()
      sampleExtract 1 [0]).2.2.2.2 (by decide)

/-- C9: the claim asserts that a timestamp is appended to the shared window
only when the extraction fully succeeds, schema validation included. In the
source the append at services.py line 124 precedes JobSchema(**data) at line
126, so a schema-validation failure still appends. Amended statement proved
here: the window is unchanged when the call raises, the API reports
non-success, or the payload is absent; and whenever the API reports success
with a payload the timestamp is appended, whether or not validation then
succeeds. -/
theorem rate_window_append_amended :
    ∀ (π : Type) (validate : π → Option JobSchema) (ts : List ℚ) (t : ℚ)
      (data : Option π) (d : π),
    (extract_job_data_async_body validate .raises ts t).2 = ts ∧
    (extract_job_data_async_body validate (.returns false data) ts t).2 = ts ∧
    (extract_job_data_async_body validate (.returns true none) ts t).2 = ts ∧
    (extract_job_data_async_body validate (.returns true (some d)) ts t).2
        = ts ++ [t] := by
  intro π validate ts t data d
  exact ⟨rfl, rfl, rfl, rfl⟩

/-- C9 counterexample: an API success with a payload that fails schema
validation returns none (a failed extraction) yet leaves the window grown
from [] to [5] — a failure path that changes the RateWindow, refuting the
claim that failed extractions never count against the window. -/
theorem rate_window_append_counterexample :
    extract_job_data_async_body (fun _ : Unit => (none : Option JobSchema))
        (.returns true (some ())) [] 5 = (none, [(5:ℚ)]) ∧
    ([(5:ℚ)] : List ℚ) ≠ [] := by
  exact ⟨rfl, by simp⟩
